import Mathlib

/-!
Shallow embedding of the arcade-game core (entities.js, levels.js, engine.js).

Pixel coordinates, speeds and time deltas are modelled as rationals.
Calls to the host random generator (`Math.random()`, values in `[0, 1)`)
are modelled by an explicit tape `rs : ℕ → ℚ` together with a cursor that
each random-consuming operation advances past the draws it consumed.
-/

/-- A 2D point in pixel space (the `{x, y}` position objects of the code). -/
structure Pos where
  x : ℚ
  y : ℚ
deriving DecidableEq

/-- `Entity.move`: advance a position by `velocity * dt`. -/
def Entity.move (p : Pos) (velocity : Pos) (dt : ℚ) : Pos :=
  ⟨p.x + velocity.x * dt, p.y + velocity.y * dt⟩

/-- `Entity.shiftPosition`: advance a position by exactly the given vector. -/
def Entity.shiftPosition (p : Pos) (displacement : Pos) : Pos :=
  ⟨p.x + displacement.x, p.y + displacement.y⟩

/-- An enemy: a position plus a constant velocity (`movement`), in pixels/s. -/
structure Enemy where
  pos : Pos
  movement : Pos
deriving DecidableEq

/-- `Enemy.update(dt)`: move by `movement * dt`. -/
def Enemy.update (e : Enemy) (dt : ℚ) : Enemy :=
  { e with pos := Entity.move e.pos e.movement dt }

/-- A gem: just a position (it stays put until picked up). -/
structure Gem where
  pos : Pos
deriving DecidableEq

/-- Level configuration (levels.js).  The base `Level` constructor sets
`tileWidth`, `tileHeight`, `widthTiles`, `waterRows`, `grassRows` and a
default `start`; subclasses then set `start`, `stoneRows`, `enemyFrequency`,
`enemyMinSpeed`, `enemyMaxSpeed` and call `generateTiles`, which sets
`heightTiles` and `tiles`.  Fields the base constructor leaves unset are
modelled as `0` / `[]` placeholders in `baseLevel` below. -/
structure Level where
  tileWidth : ℚ
  tileHeight : ℚ
  widthTiles : ℕ
  waterRows : ℕ
  grassRows : ℕ
  stoneRows : ℕ
  heightTiles : ℕ
  start : Pos
  enemyFrequency : ℚ
  enemyMinSpeed : ℚ
  enemyMaxSpeed : ℚ
  tiles : List String
deriving DecidableEq

/-- `Level.widthPixels()`: `tileWidth * widthTiles`. -/
def Level.widthPixels (l : Level) : ℚ :=
  l.tileWidth * l.widthTiles

/-- `Level.heightPixels()`: `tileHeight * heightTiles`. -/
def Level.heightPixels (l : Level) : ℚ :=
  l.tileHeight * l.heightTiles

/-- `Level.generateTiles()`: sets `heightTiles = waterRows + stoneRows + grassRows`
and fills `tiles` with `waterRows` rows of water images, then `stoneRows` rows
of stone images, then `grassRows` rows of grass images, each row pushed across
`widthTiles` columns. -/
def Level.generateTiles (l : Level) : Level :=
  { l with
    heightTiles := l.waterRows + l.stoneRows + l.grassRows,
    tiles :=
      (List.range l.waterRows).flatMap
        (fun _ => (List.range l.widthTiles).map (fun _ => "images/water-block.png")) ++
      (List.range l.stoneRows).flatMap
        (fun _ => (List.range l.widthTiles).map (fun _ => "images/stone-block.png")) ++
      (List.range l.grassRows).flatMap
        (fun _ => (List.range l.widthTiles).map (fun _ => "images/grass-block.png")) }

/-- The field assignments performed by the base `Level` constructor.
`stoneRows`, `enemyFrequency`, the speed bounds, `heightTiles` and `tiles`
are not set there (subclasses set them); they are placeholders here. -/
def baseLevel : Level :=
  { tileWidth := 101
    tileHeight := 83
    widthTiles := 7
    waterRows := 1
    grassRows := 2
    stoneRows := 0
    heightTiles := 0
    start := ⟨101 * 3, 83 * 5⟩
    enemyFrequency := 0
    enemyMinSpeed := 0
    enemyMaxSpeed := 0
    tiles := [] }

/-- The `Level1` subclass constructor. -/
def Level1 : Level :=
  Level.generateTiles
    { baseLevel with
      start := ⟨101 * 3, 83 * 5⟩
      stoneRows := 3
      enemyFrequency := 15 / 100
      enemyMinSpeed := 100
      enemyMaxSpeed := 100 }

/-- The `Level2` subclass constructor. -/
def Level2 : Level :=
  Level.generateTiles
    { baseLevel with
      start := ⟨101 * 3, 83 * 6⟩
      stoneRows := 4
      enemyFrequency := 17 / 100
      enemyMinSpeed := 100
      enemyMaxSpeed := 125 }

/-- The `Level3` subclass constructor. -/
def Level3 : Level :=
  Level.generateTiles
    { baseLevel with
      start := ⟨101 * 3, 83 * 7⟩
      stoneRows := 5
      enemyFrequency := 20 / 100
      enemyMinSpeed := 100
      enemyMaxSpeed := 150 }

/-- The `Level4` subclass constructor. -/
def Level4 : Level :=
  Level.generateTiles
    { baseLevel with
      start := ⟨101 * 3, 83 * 8⟩
      stoneRows := 6
      enemyFrequency := 23 / 100
      enemyMinSpeed := 120
      enemyMaxSpeed := 175 }

/-- The `Level5` subclass constructor. -/
def Level5 : Level :=
  Level.generateTiles
    { baseLevel with
      start := ⟨101 * 3, 83 * 9⟩
      stoneRows := 7
      enemyFrequency := 26 / 100
      enemyMinSpeed := 140
      enemyMaxSpeed := 200 }

/-- The `Level6` subclass constructor. -/
def Level6 : Level :=
  Level.generateTiles
    { baseLevel with
      start := ⟨101 * 3, 83 * 9⟩
      stoneRows := 7
      enemyFrequency := 30 / 100
      enemyMinSpeed := 160
      enemyMaxSpeed := 250 }

/-- Which class a `new` expression names: the abstract base `Level` class or
one of its concrete subclasses `Level1` .. `Level6`. -/
inductive LevelClass where
  | base
  | level1
  | level2
  | level3
  | level4
  | level5
  | level6
deriving DecidableEq

/-- Running a `Level` constructor: the base class guard
(`if (this.constructor === Level) throw ...`) makes direct construction of the
base class throw, while every concrete subclass constructs normally. -/
def constructLevel : LevelClass → Except String Level
  | LevelClass.base =>
      Except.error "Cannot create a raw Level class, create a specific class that inherits from this"
  | LevelClass.level1 => Except.ok Level1
  | LevelClass.level2 => Except.ok Level2
  | LevelClass.level3 => Except.ok Level3
  | LevelClass.level4 => Except.ok Level4
  | LevelClass.level5 => Except.ok Level5
  | LevelClass.level6 => Except.ok Level6

/-- `Level.getGemLocations()`: one gem per stone row (rows `waterRows` to
`waterRows + stoneRows - 1`), each at a column `⌊random * (widthTiles-2) + 1⌋`;
consumes one random draw per stone row. -/
def Level.getGemLocations (l : Level) (rs : ℕ → ℚ) (i : ℕ) : List Pos × ℕ :=
  ((List.range l.stoneRows).map (fun j =>
    let column : ℤ := ⌊rs (i + j) * ((l.widthTiles : ℚ) - 2) + 1⌋
    ⟨l.tileWidth * column, l.tileHeight * ((l.waterRows + j : ℕ) : ℚ)⟩),
   i + l.stoneRows)

/-- The four directional inputs the input handler can forward to the player. -/
inductive Input where
  | left
  | right
  | up
  | down
deriving DecidableEq

/-- `Player.update(input)`: shift by one tile in the input direction, then
clamp the position into
`[0, widthPixels - tileWidth] × [0, heightPixels - tileHeight]`. -/
def Player.update (l : Level) (p : Pos) (input : Input) : Pos :=
  let p1 :=
    match input with
    | Input.left => Entity.shiftPosition p ⟨-l.tileWidth, 0⟩
    | Input.right => Entity.shiftPosition p ⟨l.tileWidth, 0⟩
    | Input.up => Entity.shiftPosition p ⟨0, -l.tileHeight⟩
    | Input.down => Entity.shiftPosition p ⟨0, l.tileHeight⟩
  ⟨min (max 0 p1.x) (l.widthPixels - l.tileWidth),
   min (max 0 p1.y) (l.heightPixels - l.tileHeight)⟩

/-- `Entities.checkEnemyCreation(dt)`: with the first draw below
`dt * enemyFrequency * stoneRows`, push one enemy whose row is
`⌊random * stoneRows + waterRows⌋`, whose speed is
`⌊random * (enemyMaxSpeed - enemyMinSpeed) + enemyMinSpeed⌋`, placed at the
left edge moving right when the fourth draw is below `1/2` and at the right
edge moving left otherwise.  Returns the new enemy list and the tape cursor
(the spawning branch consumes four draws, the other branch one). -/
def checkEnemyCreation (l : Level) (enemies : List Enemy) (dt : ℚ)
    (rs : ℕ → ℚ) (i : ℕ) : List Enemy × ℕ :=
  if rs i < dt * l.enemyFrequency * (l.stoneRows : ℚ) then
    let row : ℤ := ⌊rs (i + 1) * (l.stoneRows : ℚ) + (l.waterRows : ℚ)⌋
    let speed : ℤ := ⌊rs (i + 2) * (l.enemyMaxSpeed - l.enemyMinSpeed) + l.enemyMinSpeed⌋
    if rs (i + 3) < 1 / 2 then
      (enemies ++ [⟨⟨-l.tileWidth, (row : ℚ) * l.tileHeight⟩, ⟨(speed : ℚ), 0⟩⟩], i + 4)
    else
      (enemies ++ [⟨⟨l.widthPixels + l.tileWidth, (row : ℚ) * l.tileHeight⟩, ⟨-(speed : ℚ), 0⟩⟩],
       i + 4)
  else (enemies, i + 1)

/-- The removal condition inlined in `Entities.checkEnemyRemoval`: the enemy
has fully exited the screen on the side it is moving toward. -/
def shouldRemove (l : Level) (e : Enemy) : Bool :=
  decide (e.pos.x ≤ -l.tileWidth ∧ e.movement.x < 0) ||
  decide (e.pos.x ≥ l.widthPixels ∧ e.movement.x > 0)

/-- The scan of `Entities.checkEnemyRemoval`: walk the enemy list by index;
on a removal splice the entry out and re-check the same index (the source
decrements `enemyIndex` after the splice), otherwise advance the index. -/
def removalLoop (l : Level) (enemies : List Enemy) (i : ℕ) : List Enemy :=
  if h : i < enemies.length then
    if shouldRemove l (enemies.get ⟨i, h⟩) then
      removalLoop l (enemies.eraseIdx i) i
    else
      removalLoop l enemies (i + 1)
  else enemies
termination_by enemies.length - i
decreasing_by
  · have hlen : (enemies.eraseIdx i).length = enemies.length - 1 := by
      rw [List.length_eraseIdx]
      simp [h]
    simp only [hlen]
    omega
  · omega

/-- `Entities.checkEnemyRemoval()`: run the splice scan from index 0. -/
def checkEnemyRemoval (l : Level) (enemies : List Enemy) : List Enemy :=
  removalLoop l enemies 0

/-- The proximity test inlined in `Entities.checkEnemyCollisions`. -/
def enemyInRange (l : Level) (player : Pos) (e : Enemy) : Bool :=
  decide (|player.x - e.pos.x| ≤ l.tileWidth * (77 / 100)) &&
  decide (|player.y - e.pos.y| ≤ l.tileWidth * (60 / 100))

/-- `Entities.checkEnemyCollisions()`: true when some enemy is within the
proximity thresholds of the player. -/
def checkEnemyCollisions (l : Level) (player : Pos) (enemies : List Enemy) : Bool :=
  enemies.any (enemyInRange l player)

/-- The proximity test inlined in `Entities.checkGemCollisions`. -/
def gemInRange (l : Level) (player : Pos) (g : Gem) : Bool :=
  decide (|player.x - g.pos.x| ≤ l.tileWidth * (1 / 2)) &&
  decide (|player.y - g.pos.y| ≤ l.tileWidth * (1 / 2))

/-- `Entities.checkGemCollisions()`: scan the gems in order; remove the first
one within range of the player and report true, otherwise report false.
At most one gem is removed per call. -/
def checkGemCollisions (l : Level) (player : Pos) : List Gem → Bool × List Gem
  | [] => (false, [])
  | g :: rest =>
    if gemInRange l player g then
      (true, rest)
    else
      let r := checkGemCollisions l player rest
      (r.1, g :: r.2)

/-- `Entities.checkPlayerWin()`: the player has reached the top of the screen
when its y-coordinate is below 20. -/
def checkPlayerWin (player : Pos) : Bool :=
  decide (player.y < 20)

/-- The outcome-flag object returned by `Entities.update`. -/
structure OutcomeFlags where
  hitEnemy : Bool
  pickedUpGem : Bool
  levelWon : Bool
deriving DecidableEq

/-- The state owned by the `Entities` coordinator: the level reference, the
enemy list, the gem list and the player position. -/
structure Entities where
  level : Level
  enemies : List Enemy
  gems : List Gem
  player : Pos
deriving DecidableEq

/-- `Entities.update(dt)`: spawn check, despawn scan, move every enemy by
`dt`, then the enemy-collision, gem-collision and win checks, returning the
new state, the outcome flags, and the advanced tape cursor. -/
def Entities.update (s : Entities) (dt : ℚ) (rs : ℕ → ℚ) (i : ℕ) :
    Entities × OutcomeFlags × ℕ :=
  let c := checkEnemyCreation s.level s.enemies dt rs i
  let enemies1 := checkEnemyRemoval s.level c.1
  let enemies2 := enemies1.map (fun e => e.update dt)
  let hitEnemy := checkEnemyCollisions s.level s.player enemies2
  let g := checkGemCollisions s.level s.player s.gems
  let levelWon := checkPlayerWin s.player
  ({ s with enemies := enemies2, gems := g.2 },
   { hitEnemy := hitEnemy, pickedUpGem := g.1, levelWon := levelWon }, c.2)

/-- `Entities.createInitialEnemies()`: one guaranteed spawn attempt with the
fake `dt = 1000`.  The following loop,
`for (let i = 0; i < this.level.numEnemyRows - 1; ++i) this.checkEnemyCreation(2);`,
reads `numEnemyRows`, a property no level defines (levels.js names the field
`stoneRows`), so its bound is `undefined - 1 = NaN`, `0 < NaN` is false, and
the loop body never executes: no extra spawn attempt is ever made. -/
def createInitialEnemies (l : Level) (rs : ℕ → ℚ) (i : ℕ) : List Enemy × ℕ :=
  checkEnemyCreation l [] 1000 rs i

/-- The `Entities` constructor: create the initial enemies, the gems from
`Level.getGemLocations`, and the player at the level's start position. -/
def Entities.init (l : Level) (rs : ℕ → ℚ) (i : ℕ) : Entities × ℕ :=
  let e := createInitialEnemies l rs i
  let g := l.getGemLocations rs e.2
  ({ level := l, enemies := e.1, gems := g.1.map Gem.mk, player := l.start }, g.2)

/-- A sequence of `Entities.update` calls, one per listed `dt`, threading the
state and the tape cursor. -/
def Entities.run (s : Entities) (dts : List ℚ) (rs : ℕ → ℚ) (i : ℕ) : Entities × ℕ :=
  match dts with
  | [] => (s, i)
  | dt :: rest =>
    let r := s.update dt rs i
    r.1.run rest rs r.2.2

/-- The engine state machine's states (`this.states` in engine.js). -/
inductive EngineState where
  | initialising
  | running
  | levelWin
  | gameOver
deriving DecidableEq

/-- The engine-owned state the per-frame `Engine.update` touches: the state
machine value, the score, the input-enabled flag, and the entities. -/
structure Engine where
  state : EngineState
  score : ℕ
  inputsEnabled : Bool
  entities : Entities
deriving DecidableEq

/-- `Engine.update(dt)`: when not `running`, return immediately; otherwise run
`Entities.update(dt)` and act on the flags, `hitEnemy` first, then `levelWon`,
then `pickedUpGem`. -/
def Engine.update (e : Engine) (dt : ℚ) (rs : ℕ → ℚ) (i : ℕ) : Engine × ℕ :=
  if e.state ≠ EngineState.running then (e, i)
  else
    let r := e.entities.update dt rs i
    if r.2.1.hitEnemy then
      ({ e with entities := r.1, inputsEnabled := false, state := EngineState.gameOver }, r.2.2)
    else if r.2.1.levelWon then
      ({ e with entities := r.1, inputsEnabled := false, state := EngineState.levelWin }, r.2.2)
    else if r.2.1.pickedUpGem then
      ({ e with entities := r.1, score := e.score + 1 }, r.2.2)
    else ({ e with entities := r.1 }, r.2.2)

/-- The player-position bounds the clamp in `Player.update` establishes. -/
def inBounds (l : Level) (p : Pos) : Prop :=
  0 ≤ p.x ∧ p.x ≤ l.widthPixels - l.tileWidth ∧
  0 ≤ p.y ∧ p.y ≤ l.heightPixels - l.tileHeight

/-- The row invariant for enemies: purely horizontal movement and a
y-coordinate equal to `row * tileHeight` for some stone row `row`. -/
def enemyRowInv (l : Level) (e : Enemy) : Prop :=
  e.movement.y = 0 ∧
  ∃ k : ℕ, l.waterRows ≤ k ∧ k < l.waterRows + l.stoneRows ∧
    e.pos.y = (k : ℚ) * l.tileHeight

/-- The splice scan of `checkEnemyRemoval` keeps the first `i` entries and
filters the removal condition out of the rest. -/
theorem removalLoop_eq (l : Level) (enemies : List Enemy) (i : ℕ) :
    removalLoop l enemies i =
      enemies.take i ++ (enemies.drop i).filter (fun e => !shouldRemove l e) := by
  induction enemies, i using removalLoop.induct l with
  | case1 enemies i h hrem ih =>
    rw [removalLoop, dif_pos h, if_pos hrem, ih]
    rw [List.eraseIdx_eq_take_drop_succ]
    have htk : ((enemies.take i ++ enemies.drop (i + 1)).take i) = enemies.take i := by
      apply List.take_left'
      simp [List.length_take]
      omega
    have hdr : ((enemies.take i ++ enemies.drop (i + 1)).drop i) = enemies.drop (i + 1) := by
      apply List.drop_left'
      simp [List.length_take]
      omega
    rw [htk, hdr]
    have hdi : enemies.drop i = enemies[i] :: enemies.drop (i + 1) := List.drop_eq_getElem_cons h
    rw [hdi, List.filter_cons]
    have hsr : shouldRemove l enemies[i] = true := by
      rw [← List.get_eq_getElem enemies ⟨i, h⟩]
      exact hrem
    simp [hsr]
  | case2 enemies i h hrem ih =>
    rw [removalLoop, dif_pos h, if_neg hrem, ih]
    have hdi : enemies.drop i = enemies[i] :: enemies.drop (i + 1) := List.drop_eq_getElem_cons h
    have htk : enemies.take (i + 1) = enemies.take i ++ [enemies[i]] := by
      rw [List.take_succ, List.getElem?_eq_getElem h]
      rfl
    have hsr : shouldRemove l enemies[i] = false := by
      rw [← List.get_eq_getElem enemies ⟨i, h⟩]
      simpa using hrem
    rw [htk, hdi, List.filter_cons, List.append_assoc]
    simp [hsr]
  | case3 enemies i h =>
    rw [removalLoop, dif_neg h]
    have h1 : enemies.length ≤ i := by omega
    rw [List.take_of_length_le h1, List.drop_eq_nil_of_le h1]
    simp

/-- `checkEnemyRemoval` is the filter by the (negated) removal condition. -/
theorem checkEnemyRemoval_eq_filter (l : Level) (enemies : List Enemy) :
    checkEnemyRemoval l enemies = enemies.filter (fun e => !shouldRemove l e) := by
  rw [checkEnemyRemoval, removalLoop_eq]
  rfl

/-- Updating an enemy with `dt = 0` leaves it unchanged. -/
theorem Enemy.update_zero (e : Enemy) : e.update 0 = e := by
  cases e with
  | mk pos movement =>
    cases pos
    simp [Enemy.update, Entity.move]

/-- One `Player.update` step lands inside the clamp bounds (whatever the
starting position), provided a tile fits on the screen in each dimension. -/
theorem player_update_mem_bounds (l : Level) (hw : l.tileWidth ≤ l.widthPixels)
    (hh : l.tileHeight ≤ l.heightPixels) (p : Pos) (input : Input) :
    inBounds l (Player.update l p input) := by
  refine ⟨le_min (le_max_left _ _) (by linarith), min_le_right _ _,
          le_min (le_max_left _ _) (by linarith), min_le_right _ _⟩

/-- C5: one call of `checkEnemyRemoval` removes exactly the enemies that have
fully exited on the side they move toward (`x ≤ -tileWidth` while moving left,
or `x ≥ widthPixels` while moving right) and keeps all others in order, even
when several consecutive enemies qualify in the same pass. -/
theorem checkEnemyRemoval_removes_exactly_exited (l : Level) (enemies : List Enemy) :
    checkEnemyRemoval l enemies =
      enemies.filter (fun e =>
        !(decide (e.pos.x ≤ -l.tileWidth ∧ e.movement.x < 0) ||
          decide (e.pos.x ≥ l.widthPixels ∧ e.movement.x > 0))) :=
  checkEnemyRemoval_eq_filter l enemies

/-- C7: starting from a position within bounds, after any sequence of
directional `Player.update` calls the player position stays within
`[0, widthPixels - tileWidth] × [0, heightPixels - tileHeight]`. -/
theorem player_always_clamped (l : Level) (hw : l.tileWidth ≤ l.widthPixels)
    (hh : l.tileHeight ≤ l.heightPixels) (p : Pos) (hp : inBounds l p)
    (inputs : List Input) :
    inBounds l (inputs.foldl (Player.update l) p) := by
  induction inputs generalizing p with
  | nil => exact hp
  | cons a as ih => exact ih _ (player_update_mem_bounds l hw hh p a)

/-- Witness for C7 at `Level1`, from the start position, moving up then left. -/
theorem player_always_clamped_witness :
    inBounds Level1 ([Input.up, Input.left].foldl (Player.update Level1) Level1.start) :=
  player_always_clamped Level1
    (by norm_num [Level1, baseLevel, Level.generateTiles, Level.widthPixels])
    (by norm_num [Level1, baseLevel, Level.generateTiles, Level.heightPixels])
    Level1.start
    (by norm_num [inBounds, Level1, baseLevel, Level.generateTiles, Level.widthPixels,
        Level.heightPixels]) _

/-- C8: for each concrete level, `heightTiles = waterRows + stoneRows +
grassRows`, the tile list has length `widthTiles * heightTiles`, and it is
`waterRows` rows of water images, then `stoneRows` rows of stone images, then
`grassRows` rows of grass images, each row spanning `widthTiles` columns in
row-major order. -/
theorem levels_tiles_spec :
    ∀ l ∈ [Level1, Level2, Level3, Level4, Level5, Level6],
      l.heightTiles = l.waterRows + l.stoneRows + l.grassRows ∧
      l.tiles.length = l.widthTiles * l.heightTiles ∧
      l.tiles =
        List.replicate (l.waterRows * l.widthTiles) "images/water-block.png" ++
        List.replicate (l.stoneRows * l.widthTiles) "images/stone-block.png" ++
        List.replicate (l.grassRows * l.widthTiles) "images/grass-block.png" := by
  intro l hl
  fin_cases hl <;> exact ⟨rfl, rfl, rfl⟩

/-- Witness for C8 at `Level1`. -/
theorem levels_tiles_spec_witness :
    Level1.heightTiles = Level1.waterRows + Level1.stoneRows + Level1.grassRows ∧
    Level1.tiles.length = Level1.widthTiles * Level1.heightTiles ∧
    Level1.tiles =
      List.replicate (Level1.waterRows * Level1.widthTiles) "images/water-block.png" ++
      List.replicate (Level1.stoneRows * Level1.widthTiles) "images/stone-block.png" ++
      List.replicate (Level1.grassRows * Level1.widthTiles) "images/grass-block.png" :=
  levels_tiles_spec Level1 (by simp)

/-- C9: constructing the abstract base `Level` class directly throws, while
constructing any concrete subclass succeeds — the only construction-time
failure. -/
theorem constructLevel_base_only_failure :
    constructLevel LevelClass.base =
      Except.error
        "Cannot create a raw Level class, create a specific class that inherits from this" ∧
    ∀ c : LevelClass, c ≠ LevelClass.base → ∃ l : Level, constructLevel c = Except.ok l := by
  refine ⟨rfl, ?_⟩
  intro c hc
  cases c
  · exact absurd rfl hc
  all_goals exact ⟨_, rfl⟩

/-- Witness for C9 at `Level1`. -/
theorem constructLevel_base_only_failure_witness :
    ∃ l : Level, constructLevel LevelClass.level1 = Except.ok l :=
  constructLevel_base_only_failure.2 LevelClass.level1 (by decide)

/-- C1: `Engine.update(dt)` leaves the whole engine (state, score and
input-enabled flag included) unchanged when the state is not `running`; when
`running` it calls `Entities.update(dt)` and acts on the returned flags with
`hitEnemy` taking priority over `levelWon`, which takes priority over
`pickedUpGem` (score incremented by exactly 1; the state stays `running`). -/
theorem engine_update_spec (e : Engine) (dt : ℚ) (rs : ℕ → ℚ) (i : ℕ) :
    (e.state ≠ EngineState.running → e.update dt rs i = (e, i)) ∧
    (e.state = EngineState.running →
      ((e.entities.update dt rs i).2.1.hitEnemy = true →
        e.update dt rs i =
          ({ e with
              entities := (e.entities.update dt rs i).1
              inputsEnabled := false
              state := EngineState.gameOver }, (e.entities.update dt rs i).2.2)) ∧
      ((e.entities.update dt rs i).2.1.hitEnemy = false →
          (e.entities.update dt rs i).2.1.levelWon = true →
        e.update dt rs i =
          ({ e with
              entities := (e.entities.update dt rs i).1
              inputsEnabled := false
              state := EngineState.levelWin }, (e.entities.update dt rs i).2.2)) ∧
      ((e.entities.update dt rs i).2.1.hitEnemy = false →
          (e.entities.update dt rs i).2.1.levelWon = false →
          (e.entities.update dt rs i).2.1.pickedUpGem = true →
        e.update dt rs i =
          ({ e with
              entities := (e.entities.update dt rs i).1
              score := e.score + 1 }, (e.entities.update dt rs i).2.2)) ∧
      ((e.entities.update dt rs i).2.1.hitEnemy = false →
          (e.entities.update dt rs i).2.1.levelWon = false →
          (e.entities.update dt rs i).2.1.pickedUpGem = false →
        e.update dt rs i =
          ({ e with entities := (e.entities.update dt rs i).1 },
           (e.entities.update dt rs i).2.2))) := by
  constructor
  · intro h
    rw [Engine.update, if_pos h]
  · intro h
    refine ⟨?_, ?_, ?_, ?_⟩ <;> intros <;> simp [Engine.update, h, *]

/-- Witness for C1: a `gameOver` engine is untouched by `Engine.update`. -/
theorem engine_update_spec_witness :
    (⟨EngineState.gameOver, 3, false, ⟨Level1, [], [], ⟨0, 0⟩⟩⟩ : Engine).update 0 (fun _ => 0) 0 =
      ((⟨EngineState.gameOver, 3, false, ⟨Level1, [], [], ⟨0, 0⟩⟩⟩ : Engine), 0) :=
  (engine_update_spec ⟨EngineState.gameOver, 3, false, ⟨Level1, [], [], ⟨0, 0⟩⟩⟩ 0
    (fun _ => 0) 0).1 (by decide)

/-- When no gem is within range, `checkGemCollisions` reports false and keeps
the gem list unchanged. -/
theorem checkGemCollisions_all_out (l : Level) (p : Pos) (gems : List Gem)
    (h : ∀ g ∈ gems, gemInRange l p g = false) :
    checkGemCollisions l p gems = (false, gems) := by
  induction gems with
  | nil => rfl
  | cons g rest ih =>
    have hg : gemInRange l p g = false := h g (List.mem_cons_self g rest)
    have hrest : checkGemCollisions l p rest = (false, rest) :=
      ih (fun g' hg' => h g' (List.mem_cons_of_mem g hg'))
    simp [checkGemCollisions, hg, hrest]

/-- `checkGemCollisions` removes exactly the first in-range gem. -/
theorem checkGemCollisions_first_hit (l : Level) (p : Pos) (g : Gem)
    (hg : gemInRange l p g = true) :
    ∀ (pre suf : List Gem), (∀ g' ∈ pre, gemInRange l p g' = false) →
      checkGemCollisions l p (pre ++ g :: suf) = (true, pre ++ suf) := by
  intro pre
  induction pre with
  | nil =>
    intro suf _
    simp [checkGemCollisions, hg]
  | cons a rest ih =>
    intro suf hpre
    have ha : gemInRange l p a = false := hpre a (List.mem_cons_self a rest)
    have hrest := ih suf (fun g' h' => hpre g' (List.mem_cons_of_mem a h'))
    simp [checkGemCollisions, ha, hrest]

/-- A list with exactly one entry satisfying `p` splits around that entry. -/
theorem countP_one_split {α : Type} (p : α → Bool) (xs : List α) (h : xs.countP p = 1) :
    ∃ pre x suf, xs = pre ++ x :: suf ∧ p x = true ∧
      (∀ y ∈ pre, p y = false) ∧ (∀ y ∈ suf, p y = false) := by
  induction xs with
  | nil => simp [List.countP_nil] at h
  | cons a rest ih =>
    rw [List.countP_cons] at h
    by_cases ha : p a = true
    · have h0 : rest.countP p = 0 := by
        rw [ha] at h
        have h' : rest.countP p + 1 = 1 := by simpa using h
        omega
      refine ⟨[], a, rest, rfl, ha, by simp, ?_⟩
      intro y hy
      have := List.countP_eq_zero.mp h0 y hy
      simpa using this
    · have ha' : p a = false := by simpa using ha
      have h1 : rest.countP p = 1 := by
        rw [ha'] at h
        simpa using h
      obtain ⟨pre, x, suf, hsplit, hx, hpre, hsuf⟩ := ih h1
      refine ⟨a :: pre, x, suf, by simp [hsplit], hx, ?_, hsuf⟩
      intro y hy
      rcases List.mem_cons.mp hy with rfl | hy'
      · exact ha'
      · exact hpre y hy'

/-- C6: with exactly one gem within the pickup threshold of the player, one
`checkGemCollisions` call returns true and removes exactly that gem (list
length drops by one, all other gems kept in order); an immediate second call
returns false and leaves the gem list unchanged — at most one pickup per
frame. -/
theorem gem_pickup_spec (l : Level) (p : Pos) (gems : List Gem)
    (h : gems.countP (fun g => gemInRange l p g) = 1) :
    (checkGemCollisions l p gems).1 = true ∧
    (checkGemCollisions l p gems).2.length + 1 = gems.length ∧
    (∃ pre g suf, gems = pre ++ g :: suf ∧ gemInRange l p g = true ∧
      (∀ g' ∈ pre, gemInRange l p g' = false) ∧
      (checkGemCollisions l p gems).2 = pre ++ suf) ∧
    (checkGemCollisions l p (checkGemCollisions l p gems).2).1 = false ∧
    (checkGemCollisions l p (checkGemCollisions l p gems).2).2 =
      (checkGemCollisions l p gems).2 := by
  obtain ⟨pre, g, suf, hsplit, hg, hpre, hsuf⟩ := countP_one_split _ gems h
  subst hsplit
  have h1 := checkGemCollisions_first_hit l p g hg pre suf hpre
  have hall : ∀ g' ∈ pre ++ suf, gemInRange l p g' = false := by
    intro g' hg'
    rcases List.mem_append.mp hg' with h' | h'
    · exact hpre g' h'
    · exact hsuf g' h'
  have h2 := checkGemCollisions_all_out l p (pre ++ suf) hall
  rw [h1, h2]
  refine ⟨rfl, ?_, ⟨pre, g, suf, rfl, hg, hpre, rfl⟩, rfl, rfl⟩
  simp only [List.length_append, List.length_cons]
  omega

/-- Witness for C6: a single gem exactly at the player's position on `Level1`. -/
theorem gem_pickup_spec_witness :
    ([⟨⟨101, 83⟩⟩] : List Gem).countP (fun g => gemInRange Level1 ⟨101, 83⟩ g) = 1 ∧
    (checkGemCollisions Level1 ⟨101, 83⟩ [⟨⟨101, 83⟩⟩]).1 = true := by
  have hc : ([⟨⟨101, 83⟩⟩] : List Gem).countP (fun g => gemInRange Level1 ⟨101, 83⟩ g) = 1 := by
    norm_num [List.countP, List.countP.go, gemInRange, Level1, baseLevel, Level.generateTiles]
  exact ⟨hc, (gem_pickup_spec Level1 ⟨101, 83⟩ [⟨⟨101, 83⟩⟩] hc).1⟩

/-- Updating every enemy with `dt = 0` leaves the list unchanged. -/
theorem map_update_zero (es : List Enemy) : es.map (fun e => e.update 0) = es := by
  induction es with
  | nil => rfl
  | cons e rest ih => simp [Enemy.update_zero, ih]

/-- One `Entities.update` with `dt = 0` is the identity on the state when no
enemy is already fully off screen and no gem is within pickup range. -/
theorem entities_update_zero (s : Entities) (rs : ℕ → ℚ) (i : ℕ)
    (h0 : 0 ≤ rs i)
    (hen : ∀ e ∈ s.enemies, shouldRemove s.level e = false)
    (hgem : ∀ g ∈ s.gems, gemInRange s.level s.player g = false) :
    (s.update 0 rs i).1 = s ∧ (s.update 0 rs i).2.2 = i + 1 := by
  have hc : checkEnemyCreation s.level s.enemies 0 rs i = (s.enemies, i + 1) := by
    rw [checkEnemyCreation, if_neg]
    simp only [zero_mul]
    exact not_lt.mpr h0
  have hrem : checkEnemyRemoval s.level s.enemies = s.enemies := by
    rw [checkEnemyRemoval_eq_filter]
    apply List.filter_eq_self.mpr
    intro e he
    simp [hen e he]
  have hgems := checkGemCollisions_all_out s.level s.player s.gems hgem
  constructor
  · simp [Entities.update, hc, hrem, map_update_zero, hgems]
  · simp [Entities.update, hc]

/-- Unconditionally (for nonnegative draws), one `Entities.update` with
`dt = 0` spawns nothing: the enemy list becomes exactly the filter of the
despawn condition over the old list (each survivor unchanged), and the player
and level are untouched. -/
theorem entities_update_zero_step (s : Entities) (rs : ℕ → ℚ) (i : ℕ) (h0 : 0 ≤ rs i) :
    (s.update 0 rs i).1.enemies = s.enemies.filter (fun e => !shouldRemove s.level e) ∧
    (s.update 0 rs i).1.player = s.player ∧
    (s.update 0 rs i).1.level = s.level := by
  have hc : checkEnemyCreation s.level s.enemies 0 rs i = (s.enemies, i + 1) := by
    rw [checkEnemyCreation, if_neg]
    simp only [zero_mul]
    exact not_lt.mpr h0
  refine ⟨?_, rfl, rfl⟩
  show ((checkEnemyRemoval s.level (checkEnemyCreation s.level s.enemies 0 rs i).1).map
      (fun e => e.update 0)) = _
  rw [hc]
  show (checkEnemyRemoval s.level s.enemies).map (fun e => e.update 0) = _
  rw [checkEnemyRemoval_eq_filter, map_update_zero]

/-- Iterating `Entities.update` with `dt = 0` (nonnegative draws) never spawns
and never moves an enemy: the enemy list stays a sublist of the original, and
the player and level stay unchanged, whatever the starting state. -/
theorem entities_run_zero_enemies (rs : ℕ → ℚ) (h0 : ∀ n, 0 ≤ rs n) :
    ∀ (n : ℕ) (s : Entities) (i : ℕ),
      List.Sublist (s.run (List.replicate n 0) rs i).1.enemies s.enemies ∧
      (s.run (List.replicate n 0) rs i).1.player = s.player ∧
      (s.run (List.replicate n 0) rs i).1.level = s.level := by
  intro n
  induction n with
  | zero =>
    intro s i
    exact ⟨List.Sublist.refl _, rfl, rfl⟩
  | succ k ih =>
    intro s i
    rw [List.replicate_succ]
    simp only [Entities.run]
    have hstep := entities_update_zero_step s rs i (h0 i)
    obtain ⟨h1, h2, h3⟩ := ih (s.update 0 rs i).1 ((s.update 0 rs i).2.2)
    refine ⟨?_, ?_, ?_⟩
    · refine h1.trans ?_
      rw [hstep.1]
      exact List.filter_sublist _
    · rw [h2, hstep.2.1]
    · rw [h3, hstep.2.2]

/-- C3 (amended): for nonnegative random draws (as `Math.random` produces),
after any number of `Entities.update` calls with `dt = 0` no enemy is spawned
and no enemy moves — the enemy list is a sublist of the original list with
every surviving enemy unchanged — and the player position is unchanged, for
every starting state; provided additionally that no enemy has already fully
exited on the side it moves toward and no gem is within the pickup threshold
of the player, the whole state — enemy list, gem list and player position —
is identical to the state before the calls. -/
theorem entities_update_zero_iter (s : Entities) (rs : ℕ → ℚ)
    (h0 : ∀ n, 0 ≤ rs n) (n : ℕ) (i : ℕ) :
    (List.Sublist (s.run (List.replicate n 0) rs i).1.enemies s.enemies ∧
     (s.run (List.replicate n 0) rs i).1.player = s.player) ∧
    ((∀ e ∈ s.enemies, shouldRemove s.level e = false) →
     (∀ g ∈ s.gems, gemInRange s.level s.player g = false) →
     (s.run (List.replicate n 0) rs i).1 = s) := by
  constructor
  · obtain ⟨h1, h2, _⟩ := entities_run_zero_enemies rs h0 n s i
    exact ⟨h1, h2⟩
  · intro hen hgem
    induction n generalizing i with
    | zero => rfl
    | succ k ih =>
      rw [List.replicate_succ]
      have h := entities_update_zero s rs i (h0 i) hen hgem
      simp only [Entities.run]
      rw [h.1]
      exact ih _

/-- Witness for C3 (amended) on an empty state at `Level1`. -/
theorem entities_update_zero_iter_witness :
    ((⟨Level1, [], [], ⟨0, 415⟩⟩ : Entities).run (List.replicate 3 0) (fun _ => 0) 0).1 =
      (⟨Level1, [], [], ⟨0, 415⟩⟩ : Entities) :=
  (entities_update_zero_iter ⟨Level1, [], [], ⟨0, 415⟩⟩ (fun _ => 0)
    (fun _ => le_refl 0) 3 0).2 (by simp) (by simp)

/-- C3 counterexample: a state whose player already stands on a gem.  One
`Entities.update` call with `dt = 0` removes that gem, so the gem list is not
left unchanged: `update(0)` still performs the gem-collision step. -/
theorem entities_update_zero_gem_counterexample :
    ((⟨Level1, [], [⟨⟨101 * 3, 83 * 5⟩⟩], ⟨101 * 3, 83 * 5⟩⟩ : Entities).update 0
        (fun _ => 0) 0).1.gems ≠
      (⟨Level1, [], [⟨⟨101 * 3, 83 * 5⟩⟩], ⟨101 * 3, 83 * 5⟩⟩ : Entities).gems := by
  have hc : checkEnemyCreation Level1 [] 0 (fun _ => 0) 0 = ([], 1) := by
    rw [checkEnemyCreation, if_neg]
    simp only [zero_mul]
    exact not_lt.mpr (le_refl 0)
  have hg : gemInRange Level1 ⟨101 * 3, 83 * 5⟩ (⟨⟨101 * 3, 83 * 5⟩⟩ : Gem) = true := by
    norm_num [gemInRange, Level1, baseLevel, Level.generateTiles]
  have hgems :
      checkGemCollisions Level1 ⟨101 * 3, 83 * 5⟩ [(⟨⟨101 * 3, 83 * 5⟩⟩ : Gem)] = (true, []) := by
    simpa using checkGemCollisions_first_hit Level1 ⟨101 * 3, 83 * 5⟩ _ hg [] [] (by simp)
  simp [Entities.update, hc, hgems, checkEnemyRemoval_eq_filter]

/-- C2: evaluating `createInitialEnemies` on `Level1` (random tape constantly
0, so every spawn attempt would succeed): the constructor produces exactly one
enemy, not the `1 + (stoneRows - 1) = 3` the documented per-row extra attempts
would give — the extra-attempt loop reads the undefined `numEnemyRows` and
never runs. -/
theorem createInitialEnemies_level1_one_enemy :
    (createInitialEnemies Level1 (fun _ => 0) 0).1.length = 1 := by
  rw [createInitialEnemies, checkEnemyCreation]
  norm_num [Level1, baseLevel, Level.generateTiles]

/-- The floor used by the spawn computations hits `k` exactly on an interval
of draws of width `1/s`. -/
theorem floor_affine_eq_iff (r s w : ℚ) (k : ℤ) (hs : 0 < s) :
    ⌊r * s + w⌋ = k ↔ ((k : ℚ) - w) / s ≤ r ∧ r < ((k : ℚ) + 1 - w) / s := by
  rw [Int.floor_eq_iff, div_le_iff₀ hs, lt_div_iff₀ hs]
  constructor
  · rintro ⟨a, b⟩
    exact ⟨by linarith, by linarith⟩
  · rintro ⟨a, b⟩
    exact ⟨by linarith, by linarith⟩

/-- The spawn-row floor lands on a stone row: a natural `k` with
`waterRows ≤ k < waterRows + stoneRows`. -/
theorem spawn_row_bounds (st w : ℕ) (r : ℚ) (h0 : 0 ≤ r) (h1 : r < 1) (hst : 1 ≤ st) :
    ∃ k : ℕ, w ≤ k ∧ k < w + st ∧ ⌊r * (st : ℚ) + (w : ℚ)⌋ = (k : ℤ) := by
  have hs : (0 : ℚ) < (st : ℚ) := by exact_mod_cast hst
  have hlo : (w : ℤ) ≤ ⌊r * (st : ℚ) + (w : ℚ)⌋ := by
    apply Int.le_floor.mpr
    push_cast
    nlinarith [mul_nonneg h0 hs.le]
  have hhi : ⌊r * (st : ℚ) + (w : ℚ)⌋ < (w : ℤ) + (st : ℤ) := by
    apply Int.floor_lt.mpr
    push_cast
    nlinarith [mul_lt_mul_of_pos_right h1 hs]
  refine ⟨(⌊r * (st : ℚ) + (w : ℚ)⌋).toNat, ?_, ?_, ?_⟩ <;> omega

/-- A successful spawn check forces at least one stone row (the spawn
probability is `dt * enemyFrequency * stoneRows`, which a nonnegative draw can
only undercut when `stoneRows ≠ 0`). -/
theorem spawn_implies_stoneRows_pos (l : Level) (dt x : ℚ)
    (h0 : 0 ≤ x) (hc : x < dt * l.enemyFrequency * (l.stoneRows : ℚ)) :
    1 ≤ l.stoneRows := by
  by_contra hst
  have hz : l.stoneRows = 0 := by omega
  rw [hz] at hc
  push_cast at hc
  nlinarith

/-- The spawning branch of `checkEnemyCreation`, written out. -/
theorem checkEnemyCreation_spawn_eq (l : Level) (es : List Enemy) (dt : ℚ)
    (rs : ℕ → ℚ) (i : ℕ) (hc : rs i < dt * l.enemyFrequency * (l.stoneRows : ℚ)) :
    checkEnemyCreation l es dt rs i =
      (es ++ [⟨⟨(if rs (i + 3) < 1 / 2 then -l.tileWidth else l.widthPixels + l.tileWidth),
        ((⌊rs (i + 1) * (l.stoneRows : ℚ) + (l.waterRows : ℚ)⌋ : ℤ) : ℚ) * l.tileHeight⟩,
        ⟨(if rs (i + 3) < 1 / 2
            then ((⌊rs (i + 2) * (l.enemyMaxSpeed - l.enemyMinSpeed) + l.enemyMinSpeed⌋ : ℤ) : ℚ)
            else -((⌊rs (i + 2) * (l.enemyMaxSpeed - l.enemyMinSpeed) + l.enemyMinSpeed⌋ : ℤ) : ℚ)),
         0⟩⟩], i + 4) := by
  simp only [checkEnemyCreation]
  rw [if_pos hc]
  by_cases hside : rs (i + 3) < 1 / 2
  · rw [if_pos hside, if_pos hside, if_pos hside]
  · rw [if_neg hside, if_neg hside, if_neg hside]

/-- The non-spawning branch of `checkEnemyCreation`. -/
theorem checkEnemyCreation_no_spawn (l : Level) (es : List Enemy) (dt : ℚ)
    (rs : ℕ → ℚ) (i : ℕ) (hc : ¬ rs i < dt * l.enemyFrequency * (l.stoneRows : ℚ)) :
    checkEnemyCreation l es dt rs i = (es, i + 1) := by
  rw [checkEnemyCreation, if_neg hc]

/-- C4 counterexample: on `Level2` (`enemyMinSpeed = 100`, `enemyMaxSpeed =
125`) no speed draw in `[0, 1)` makes `checkEnemyCreation` spawn an enemy of
speed 125: the floored speed is always strictly below `enemyMaxSpeed`, so the
spawn speed is not uniform over the closed interval
`[enemyMinSpeed, enemyMaxSpeed]`. -/
theorem checkEnemyCreation_speed_never_max :
    ¬ ∃ r : ℚ, 0 ≤ r ∧ r < 1 ∧
      ((checkEnemyCreation Level2 [] 1 (fun n => if n = 2 then r else 0) 0).1.map
        (fun e => e.movement.x)) = [(125 : ℚ)] := by
  rintro ⟨r, hr0, hr1, heq⟩
  have hc : (fun n => if n = 2 then r else (0 : ℚ)) 0 <
      1 * Level2.enemyFrequency * (Level2.stoneRows : ℚ) := by
    norm_num [Level2, baseLevel, Level.generateTiles]
  rw [checkEnemyCreation_spawn_eq Level2 [] 1 (fun n => if n = 2 then r else 0) 0 hc] at heq
  norm_num [Level2, baseLevel, Level.generateTiles] at heq
  have h25 : ((⌊r * (25 : ℚ)⌋ : ℤ) : ℚ) = 25 := by linarith
  have hfl : ⌊r * (25 : ℚ)⌋ = 25 := by exact_mod_cast h25
  have hle : (25 : ℚ) ≤ r * 25 := by
    have h := Int.floor_le (r * (25 : ℚ))
    rw [hfl] at h
    exact_mod_cast h
  nlinarith

/-- C4 (amended): a `checkEnemyCreation(dt)` call spawns exactly when the
first draw is below `dt * enemyFrequency * stoneRows`.  The spawned enemy's
row floor always lands on a stone row (never a water or grass row) and hits
each row `k` on an interval of draws of equal width `1/stoneRows`.  Its speed
is `⌊r·(enemyMaxSpeed − enemyMinSpeed) + enemyMinSpeed⌋`: an integer at least
`enemyMinSpeed`, strictly below `enemyMaxSpeed` when the bounds differ (so
`enemyMaxSpeed` itself is never produced), equal to the common value when the
bounds coincide, and hitting each integer in `[enemyMinSpeed, enemyMaxSpeed)`
on an interval of draws of equal width `1/(enemyMaxSpeed − enemyMinSpeed)`.
The spawn side is the left edge exactly when the fourth draw is below `1/2`
(the right edge on the complementary half), with the horizontal velocity
pointing toward the opposite edge; the vertical velocity is 0. -/
theorem checkEnemyCreation_spawn_spec (l : Level) (es : List Enemy) (dt : ℚ)
    (rs : ℕ → ℚ) (i : ℕ) (mi ma : ℤ)
    (hmi : l.enemyMinSpeed = (mi : ℚ)) (hma : l.enemyMaxSpeed = (ma : ℚ))
    (hmipos : 0 < mi) (hmima : mi ≤ ma)
    (h2a : 0 ≤ rs (i + 1)) (h2b : rs (i + 1) < 1)
    (h3a : 0 ≤ rs (i + 2)) (h3b : rs (i + 2) < 1) (h0 : 0 ≤ rs i) :
    (¬ rs i < dt * l.enemyFrequency * (l.stoneRows : ℚ) →
      checkEnemyCreation l es dt rs i = (es, i + 1)) ∧
    (rs i < dt * l.enemyFrequency * (l.stoneRows : ℚ) →
      ∃ e : Enemy, checkEnemyCreation l es dt rs i = (es ++ [e], i + 4) ∧
        (∃ k : ℕ, l.waterRows ≤ k ∧ k < l.waterRows + l.stoneRows ∧
          e.pos.y = (k : ℚ) * l.tileHeight) ∧
        (∀ k' : ℤ, ⌊rs (i + 1) * (l.stoneRows : ℚ) + (l.waterRows : ℚ)⌋ = k' ↔
          ((k' : ℚ) - (l.waterRows : ℚ)) / (l.stoneRows : ℚ) ≤ rs (i + 1) ∧
            rs (i + 1) < ((k' : ℚ) + 1 - (l.waterRows : ℚ)) / (l.stoneRows : ℚ)) ∧
        (∃ sp : ℤ, sp = ⌊rs (i + 2) * ((ma : ℚ) - (mi : ℚ)) + (mi : ℚ)⌋ ∧
          mi ≤ sp ∧ (mi < ma → sp < ma) ∧ (mi = ma → sp = mi) ∧
          (∀ k' : ℤ, mi < ma →
            (sp = k' ↔ ((k' : ℚ) - (mi : ℚ)) / ((ma : ℚ) - (mi : ℚ)) ≤ rs (i + 2) ∧
              rs (i + 2) < ((k' : ℚ) + 1 - (mi : ℚ)) / ((ma : ℚ) - (mi : ℚ)))) ∧
          (rs (i + 3) < 1 / 2 →
            e.pos.x = -l.tileWidth ∧ e.movement.x = (sp : ℚ) ∧ 0 < e.movement.x) ∧
          (¬ rs (i + 3) < 1 / 2 →
            e.pos.x = l.widthPixels + l.tileWidth ∧ e.movement.x = -(sp : ℚ) ∧
              e.movement.x < 0)) ∧
        e.movement.y = 0) := by
  refine ⟨checkEnemyCreation_no_spawn l es dt rs i, ?_⟩
  intro hc
  have hst : 1 ≤ l.stoneRows := spawn_implies_stoneRows_pos l dt (rs i) h0 hc
  have hs : (0 : ℚ) < (l.stoneRows : ℚ) := by exact_mod_cast hst
  have hdnn : (0 : ℚ) ≤ (ma : ℚ) - (mi : ℚ) := by
    have h : (mi : ℚ) ≤ (ma : ℚ) := by exact_mod_cast hmima
    linarith
  have hsp_lb : mi ≤ ⌊rs (i + 2) * ((ma : ℚ) - (mi : ℚ)) + (mi : ℚ)⌋ := by
    apply Int.le_floor.mpr
    nlinarith [mul_nonneg h3a hdnn]
  have hsp_pos : (0 : ℚ) < ((⌊rs (i + 2) * ((ma : ℚ) - (mi : ℚ)) + (mi : ℚ)⌋ : ℤ) : ℚ) := by
    have h : (0 : ℤ) < ⌊rs (i + 2) * ((ma : ℚ) - (mi : ℚ)) + (mi : ℚ)⌋ :=
      lt_of_lt_of_le hmipos hsp_lb
    exact_mod_cast h
  have hsq := checkEnemyCreation_spawn_eq l es dt rs i hc
  rw [hmi, hma] at hsq
  refine ⟨_, hsq, ?_, ?_, ?_, rfl⟩
  · obtain ⟨k, hk1, hk2, hk3⟩ := spawn_row_bounds l.stoneRows l.waterRows (rs (i + 1)) h2a h2b hst
    refine ⟨k, hk1, hk2, ?_⟩
    show ((⌊rs (i + 1) * (l.stoneRows : ℚ) + (l.waterRows : ℚ)⌋ : ℤ) : ℚ) * l.tileHeight = _
    rw [hk3]
    norm_cast
  · intro k'
    exact floor_affine_eq_iff (rs (i + 1)) (l.stoneRows : ℚ) (l.waterRows : ℚ) k' hs
  · refine ⟨⌊rs (i + 2) * ((ma : ℚ) - (mi : ℚ)) + (mi : ℚ)⌋, rfl, hsp_lb, ?_, ?_, ?_, ?_, ?_⟩
    · intro hlt
      apply Int.floor_lt.mpr
      have hdpos : (0 : ℚ) < (ma : ℚ) - (mi : ℚ) := by
        have h : (mi : ℚ) < (ma : ℚ) := by exact_mod_cast hlt
        linarith
      nlinarith [mul_lt_mul_of_pos_right h3b hdpos]
    · intro heqq
      subst heqq
      simp
    · intro k' hlt
      have hdpos : (0 : ℚ) < (ma : ℚ) - (mi : ℚ) := by
        have h : (mi : ℚ) < (ma : ℚ) := by exact_mod_cast hlt
        linarith
      exact floor_affine_eq_iff (rs (i + 2)) ((ma : ℚ) - (mi : ℚ)) (mi : ℚ) k' hdpos
    · intro hside
      refine ⟨?_, ?_, ?_⟩
      · show (if rs (i + 3) < 1 / 2 then -l.tileWidth else l.widthPixels + l.tileWidth) = _
        rw [if_pos hside]
      · show (if rs (i + 3) < 1 / 2
            then ((⌊rs (i + 2) * ((ma : ℚ) - (mi : ℚ)) + (mi : ℚ)⌋ : ℤ) : ℚ)
            else -((⌊rs (i + 2) * ((ma : ℚ) - (mi : ℚ)) + (mi : ℚ)⌋ : ℤ) : ℚ)) = _
        rw [if_pos hside]
      · show (0 : ℚ) < (if rs (i + 3) < 1 / 2
            then ((⌊rs (i + 2) * ((ma : ℚ) - (mi : ℚ)) + (mi : ℚ)⌋ : ℤ) : ℚ)
            else -((⌊rs (i + 2) * ((ma : ℚ) - (mi : ℚ)) + (mi : ℚ)⌋ : ℤ) : ℚ))
        rw [if_pos hside]
        exact hsp_pos
    · intro hside
      refine ⟨?_, ?_, ?_⟩
      · show (if rs (i + 3) < 1 / 2 then -l.tileWidth else l.widthPixels + l.tileWidth) = _
        rw [if_neg hside]
      · show (if rs (i + 3) < 1 / 2
            then ((⌊rs (i + 2) * ((ma : ℚ) - (mi : ℚ)) + (mi : ℚ)⌋ : ℤ) : ℚ)
            else -((⌊rs (i + 2) * ((ma : ℚ) - (mi : ℚ)) + (mi : ℚ)⌋ : ℤ) : ℚ)) = _
        rw [if_neg hside]
      · show (if rs (i + 3) < 1 / 2
            then ((⌊rs (i + 2) * ((ma : ℚ) - (mi : ℚ)) + (mi : ℚ)⌋ : ℤ) : ℚ)
            else -((⌊rs (i + 2) * ((ma : ℚ) - (mi : ℚ)) + (mi : ℚ)⌋ : ℤ) : ℚ)) < 0
        rw [if_neg hside]
        linarith

/-- Witness for C4 (amended) on `Level2`, no-spawn branch with the zero tape. -/
theorem checkEnemyCreation_spawn_spec_witness :
    checkEnemyCreation Level2 [] 0 (fun _ => 0) 0 = ([], 1) := by
  have h := checkEnemyCreation_spawn_spec Level2 [] 0 (fun _ => 0) 0 100 125
    (by norm_num [Level2, baseLevel, Level.generateTiles])
    (by norm_num [Level2, baseLevel, Level.generateTiles])
    (by norm_num) (by norm_num) (by norm_num) (by norm_num) (by norm_num) (by norm_num)
    (by norm_num)
  exact h.1 (by simp)

/-- Every enemy present after `checkEnemyCreation` either was present before
or is a fresh spawn satisfying the stone-row invariant. -/
theorem checkEnemyCreation_mem (l : Level) (es : List Enemy) (dt : ℚ) (rs : ℕ → ℚ) (i : ℕ)
    (h0 : 0 ≤ rs i) (h2 : 0 ≤ rs (i + 1)) (h3 : rs (i + 1) < 1) :
    ∀ e ∈ (checkEnemyCreation l es dt rs i).1, e ∈ es ∨ enemyRowInv l e := by
  intro e he
  by_cases hc : rs i < dt * l.enemyFrequency * (l.stoneRows : ℚ)
  · rw [checkEnemyCreation_spawn_eq l es dt rs i hc] at he
    simp only [List.mem_append, List.mem_singleton] at he
    rcases he with h | h
    · exact Or.inl h
    · right
      subst h
      have hst : 1 ≤ l.stoneRows := spawn_implies_stoneRows_pos l dt (rs i) h0 hc
      obtain ⟨k, hk1, hk2, hk3⟩ := spawn_row_bounds l.stoneRows l.waterRows (rs (i + 1)) h2 h3 hst
      refine ⟨rfl, k, hk1, hk2, ?_⟩
      show ((⌊rs (i + 1) * (l.stoneRows : ℚ) + (l.waterRows : ℚ)⌋ : ℤ) : ℚ) * l.tileHeight = _
      rw [hk3]
      norm_cast
  · rw [checkEnemyCreation_no_spawn l es dt rs i hc] at he
    exact Or.inl he

/-- Enemies surviving `checkEnemyRemoval` come from the input list. -/
theorem checkEnemyRemoval_subset (l : Level) (es : List Enemy) :
    ∀ e ∈ checkEnemyRemoval l es, e ∈ es := by
  intro e he
  rw [checkEnemyRemoval_eq_filter] at he
  exact (List.mem_filter.mp he).1

/-- `Enemy.update` preserves the stone-row invariant: with a purely horizontal
movement the y-coordinate never changes. -/
theorem enemy_update_rowInv (l : Level) (e : Enemy) (dt : ℚ) (h : enemyRowInv l e) :
    enemyRowInv l (e.update dt) := by
  obtain ⟨hy, k, hk1, hk2, hk3⟩ := h
  refine ⟨hy, k, hk1, hk2, ?_⟩
  simp [Enemy.update, Entity.move, hy, hk3]

/-- One `Entities.update` keeps the level and preserves the enemy row
invariant, for random draws in `[0, 1)`. -/
theorem entities_update_rowInv (s : Entities) (dt : ℚ) (rs : ℕ → ℚ) (i : ℕ)
    (h0 : 0 ≤ rs i) (h2 : 0 ≤ rs (i + 1)) (h3 : rs (i + 1) < 1)
    (hinv : ∀ e ∈ s.enemies, enemyRowInv s.level e) :
    (s.update dt rs i).1.level = s.level ∧
    ∀ e ∈ (s.update dt rs i).1.enemies, enemyRowInv s.level e := by
  refine ⟨rfl, ?_⟩
  intro e he
  have he' : e ∈ (checkEnemyRemoval s.level (checkEnemyCreation s.level s.enemies dt rs i).1).map
      (fun e => e.update dt) := he
  obtain ⟨e1, he1, hmap⟩ := List.mem_map.mp he'
  have he2 := checkEnemyRemoval_subset _ _ e1 he1
  subst hmap
  rcases checkEnemyCreation_mem s.level s.enemies dt rs i h0 h2 h3 e1 he2 with hmem | hnew
  · exact enemy_update_rowInv _ _ _ (hinv e1 hmem)
  · exact enemy_update_rowInv _ _ _ hnew

/-- C10: every spawned enemy has a purely horizontal movement vector, and
`Enemy.update` never changes the y-coordinate (or movement) of such an enemy;
consequently every enemy present after `Entities` construction, and after any
sequence of `Entities.update` calls starting from a state whose enemies all
sit on stone rows, has its y-coordinate equal to `row * tileHeight` for a
stone row `row` — enemies move strictly horizontally and never change rows. -/
theorem enemies_stay_horizontal (rs : ℕ → ℚ) (hr : ∀ n, 0 ≤ rs n ∧ rs n < 1) :
    (∀ (e : Enemy) (dt : ℚ), e.movement.y = 0 →
      (e.update dt).pos.y = e.pos.y ∧ (e.update dt).movement = e.movement) ∧
    (∀ (l : Level) (i : ℕ), ∀ e ∈ (Entities.init l rs i).1.enemies, enemyRowInv l e) ∧
    (∀ (s : Entities) (dts : List ℚ) (i : ℕ),
      (∀ e ∈ s.enemies, enemyRowInv s.level e) →
      ∀ e ∈ (s.run dts rs i).1.enemies, enemyRowInv s.level e) := by
  refine ⟨?_, ?_, ?_⟩
  · intro e dt hy
    constructor
    · simp [Enemy.update, Entity.move, hy]
    · rfl
  · intro l i e he
    have he' : e ∈ (checkEnemyCreation l [] 1000 rs i).1 := he
    rcases checkEnemyCreation_mem l [] 1000 rs i (hr i).1 (hr (i + 1)).1 (hr (i + 1)).2 e he'
      with h | h
    · simp at h
    · exact h
  · intro s dts
    induction dts generalizing s with
    | nil =>
      intro i hinv e he
      exact hinv e he
    | cons dt rest ih =>
      intro i hinv e he
      have hstep := entities_update_rowInv s dt rs i (hr i).1 (hr (i + 1)).1 (hr (i + 1)).2 hinv
      simp only [Entities.run] at he
      have hinv' : ∀ e' ∈ (s.update dt rs i).1.enemies,
          enemyRowInv (s.update dt rs i).1.level e' := by
        rw [hstep.1]
        exact hstep.2
      have hres := ih (s.update dt rs i).1 ((s.update dt rs i).2.2) hinv' e he
      rw [hstep.1] at hres
      exact hres

/-- Witness for C10: a stone-row enemy with horizontal movement keeps its
y-coordinate and movement across an `Enemy.update` step. -/
theorem enemies_stay_horizontal_witness :
    ((⟨⟨0, 83⟩, ⟨100, 0⟩⟩ : Enemy).update 1).pos.y = (⟨⟨0, 83⟩, ⟨100, 0⟩⟩ : Enemy).pos.y ∧
    ((⟨⟨0, 83⟩, ⟨100, 0⟩⟩ : Enemy).update 1).movement = (⟨⟨0, 83⟩, ⟨100, 0⟩⟩ : Enemy).movement :=
  (enemies_stay_horizontal (fun _ => 1 / 2) (fun _ => by norm_num)).1 ⟨⟨0, 83⟩, ⟨100, 0⟩⟩ 1 rfl
